import Mathlib

/-!
Shallow embedding of `src/components/empty-project-state.tsx`.

The React component state (the `useState` hooks) is modelled as the record
`ComponentState`.  JSON payloads returned by `response.json()` are modelled by
`JsValue`; the network is an explicit `FetchResult` environment.  Each async
handler of the source (`fetchFiles`, `processFiles`, `deleteFile`) becomes a
state transformer that also emits the list of observable events (network
calls, toasts, collaborator callbacks) and a label naming the branch of the
source that ran.
-/

namespace EmptyProjectState

/-- A JavaScript/JSON value, as produced by `response.json()`.  Numeric
payloads are modelled as integers; no claim involves non-integral numbers. -/
inductive JsValue where
  | undefined : JsValue
  | null : JsValue
  | bool : Bool → JsValue
  | num : Int → JsValue
  | str : String → JsValue
  | arr : List JsValue → JsValue
  | obj : List (String × JsValue) → JsValue

mutual

/-- Structural equality on JSON values (value equality, as relevant for
comparing `id` fields; reference identity plays no role in the claims). -/
def jsEqb : JsValue → JsValue → Bool
  | .undefined, .undefined => true
  | .null, .null => true
  | .bool a, .bool b => a == b
  | .num a, .num b => a == b
  | .str a, .str b => a == b
  | .arr xs, .arr ys => jsEqbList xs ys
  | .obj xs, .obj ys => jsEqbFields xs ys
  | _, _ => false

/-- Elementwise equality of JSON arrays. -/
def jsEqbList : List JsValue → List JsValue → Bool
  | [], [] => true
  | x :: xs, y :: ys => jsEqb x y && jsEqbList xs ys
  | _, _ => false

/-- Elementwise equality of JSON object field lists. -/
def jsEqbFields : List (String × JsValue) → List (String × JsValue) → Bool
  | [], [] => true
  | (k, v) :: xs, (l, w) :: ys => k == l && jsEqb v w && jsEqbFields xs ys
  | _, _ => false

end

/-- First binding of a key in an object literal (objects built by JSON
parsing; the fields are distinct in every payload considered here). -/
def lookupField : List (String × JsValue) → String → JsValue
  | [], _ => .undefined
  | (k, v) :: rest, key => if k = key then v else lookupField rest key

/-- JavaScript property access `v.key`.  `none` models the `TypeError` thrown
when reading a property of `undefined` or `null`.  For the property names
used by the component (`success`, `data`, `files`, `message`, `id`), access
on arrays, strings, numbers and booleans yields `undefined`. -/
def getProp : JsValue → String → Option JsValue
  | .undefined, _ => none
  | .null, _ => none
  | .obj fields, key => some (lookupField fields key)
  | _, _ => some .undefined

/-- JavaScript truthiness. -/
def truthy : JsValue → Bool
  | .undefined => false
  | .null => false
  | .bool b => b
  | .num n => n != 0
  | .str s => s != ""
  | .arr _ => true
  | .obj _ => true

/-- Total property access used where the receiver is known not to be
`undefined`/`null` (e.g. elements of the files array inside a filter). -/
def jsGet (v : JsValue) (key : String) : JsValue :=
  (getProp v key).getD .undefined

/-- Optional chaining `v?.key` (line 219: `result.data?.message`). -/
def optChainGet (v : JsValue) (key : String) : JsValue :=
  match v with
  | .undefined => .undefined
  | .null => .undefined
  | _ => jsGet v key

/-- JavaScript strict equality `v === s` where the right operand is a string:
true exactly when `v` is that same string. -/
def jsStrictEqStr (v : JsValue) (s : String) : Bool :=
  match v with
  | .str t => t = s
  | _ => false

/-- `Array.isArray`. -/
def isArrayB : JsValue → Bool
  | .arr _ => true
  | _ => false

/-- Line 83 of the source:
`const fileData = result.success ? result.data.files : result.data ? result.data.files : result.files`.
`none` models an uncaught-at-this-point `TypeError` (e.g. a truthy `success`
field with no `data` object), which the enclosing `try` then catches. -/
def extractFileData (result : JsValue) : Option JsValue := do
  let success ← getProp result "success"
  if truthy success then
    let d ← getProp result "data"
    getProp d "files"
  else
    let d ← getProp result "data"
    if truthy d then getProp d "files" else getProp result "files"

/-- The `step` hook (line 40): `"initial"` is the chooser, `"document"` the
authoring-seed form. -/
inductive Step where
  | initial : Step
  | document : Step
deriving DecidableEq

/-- The component state: one field per `useState` hook (lines 39-44). -/
structure ComponentState where
  description : String
  step : Step
  isUploading : Bool
  files : List JsValue
  isLoading : Bool
  isDeleting : Option String

/-- Initial hook values (lines 39-44). -/
def initialState : ComponentState :=
  { description := ""
    step := .initial
    isUploading := false
    files := []
    isLoading := true
    isDeleting := none }

/-- The three backend endpoints the component calls. -/
inductive Endpoint where
  | list : Endpoint
  | upload : Endpoint
  | delete : String → Endpoint
deriving DecidableEq

/-- Observable events emitted by the handlers, in program order. -/
inductive Event where
  | networkCall : Endpoint → Event
  | toast : String → JsValue → Bool → Event
  | filesChanged : Event
  | startCreatingDocument : String → Event

/-- Environment for one `fetch` round trip.  `thrown` covers a network
failure of `fetch` itself and a `response.json()` parse failure: both land in
the same `catch` block of the source. -/
inductive FetchResult where
  | thrown : FetchResult
  | response : Bool → JsValue → FetchResult

/-- Which branch of `fetchFiles` ran. -/
inductive FetchOutcome where
  | skipped : FetchOutcome
  | unauthorized : FetchOutcome
  | networkError : FetchOutcome
  | malformed : FetchOutcome
  | remoteError : FetchOutcome
  | success : FetchOutcome
deriving DecidableEq

/-- `fetchFiles` (lines 60-114).  The bearer token is the synchronous
`localStorage.getItem("token")` read; a missing token throws and is caught by
the same `catch` as a network failure, producing the connectivity toast. -/
def fetchFiles (projectId : Option String) (token : Option String)
    (net : FetchResult) (s : ComponentState) :
    ComponentState × List Event × FetchOutcome :=
  match projectId with
  | none => (s, [], .skipped)
  | some _ =>
    let s1 := { s with isLoading := true }
    match token with
    | none =>
        ({ s1 with isLoading := false },
         [.toast "获取文件列表失败" (.str "请检查网络连接") true], .unauthorized)
    | some _ =>
      match net with
      | .thrown =>
          ({ s1 with isLoading := false },
           [.networkCall .list,
            .toast "获取文件列表失败" (.str "请检查网络连接") true], .networkError)
      | .response ok body =>
        if ok then
          match extractFileData body with
          | none =>
              ({ s1 with isLoading := false },
               [.networkCall .list,
                .toast "获取文件列表失败" (.str "请检查网络连接") true], .networkError)
          | some fd =>
            match fd with
            | .arr fs =>
                ({ s1 with files := fs, isLoading := false },
                 [.networkCall .list], .success)
            | _ =>
                ({ s1 with isLoading := false },
                 [.networkCall .list,
                  .toast "获取文件列表失败" (.str "返回的文件数据格式不正确") true],
                 .malformed)
        else
          match getProp body "message" with
          | none =>
              ({ s1 with isLoading := false },
               [.networkCall .list,
                .toast "获取文件列表失败" (.str "请检查网络连接") true], .networkError)
          | some m =>
              ({ s1 with isLoading := false },
               [.networkCall .list,
                .toast "获取文件列表失败" (if truthy m then m else .str "未知错误") true],
               .remoteError)

/-- The mount effect (lines 51-57): fetch when a project context exists,
otherwise only clear the loading flag. -/
def mountEffect (projectId : Option String) (token : Option String)
    (net : FetchResult) (s : ComponentState) :
    ComponentState × List Event × FetchOutcome :=
  match projectId with
  | some _ => fetchFiles projectId token net s
  | none => ({ s with isLoading := false }, [], .skipped)

/-- Which branch of `processFiles` ran. -/
inductive ProcOutcome where
  | missingContext : ProcOutcome
  | unauthorized : ProcOutcome
  | networkError : ProcOutcome
  | uploadFailed : ProcOutcome
  | success : ProcOutcome
deriving DecidableEq

/-- Line 136: `setIsUploading(true)` at the start of the `try` scope of
`processFiles`. -/
def ingestStart (s : ComponentState) : ComponentState :=
  { s with isUploading := true }

/-- Line 188: `setIsUploading(false)` in the `finally` block of
`processFiles`. -/
def ingestFinish (s : ComponentState) : ComponentState :=
  { s with isUploading := false }

/-- Lines 137-186 of `processFiles`: the `try`/`catch` body between the two
flag writes.  `fileCount` is `fileList.length`.  On a successful upload the
source invokes `fetchFiles()` (without awaiting it) and then
`onFilesUploaded()`; the refresh round trip is composed here sequentially
with its own network environment `listNet`, which yields the same final
state.  The token is read from the same credential source both times. -/
def ingestBody (fileCount : Nat) (projectId : String) (token : Option String)
    (upNet : FetchResult) (listNet : FetchResult) (s : ComponentState) :
    ComponentState × List Event × ProcOutcome :=
  match token with
  | none =>
      (s, [.toast "上传失败" (.str "请检查网络连接") true], .unauthorized)
  | some _ =>
    match upNet with
    | .thrown =>
        (s, [.networkCall .upload,
             .toast "上传失败" (.str "请检查网络连接") true], .networkError)
    | .response ok body =>
      if ok then
        match getProp body "message" with
        | none =>
            (s, [.networkCall .upload,
                 .toast "上传失败" (.str "请检查网络连接") true], .networkError)
        | some m =>
            let msg := if truthy m then m
                       else .str ("成功上传 " ++ toString fileCount ++ " 个文件")
            let r := fetchFiles (some projectId) token listNet s
            (r.1,
             [.networkCall .upload, .toast "上传成功" msg false]
               ++ r.2.1 ++ [.filesChanged], .success)
      else
        match getProp body "message" with
        | none =>
            (s, [.networkCall .upload,
                 .toast "上传失败" (.str "请检查网络连接") true], .networkError)
        | some m =>
            (s, [.networkCall .upload,
                 .toast "上传失败" (if truthy m then m else .str "未知错误") true],
             .uploadFailed)

/-- `processFiles` (lines 126-190): the single ingestion operation behind the
file picker and the drag-and-drop surface. -/
def processFiles (fileCount : Nat) (projectId : Option String)
    (token : Option String) (upNet : FetchResult) (listNet : FetchResult)
    (s : ComponentState) : ComponentState × List Event × ProcOutcome :=
  match projectId with
  | none =>
      (s, [.toast "上传失败" (.str "未找到项目ID") true], .missingContext)
  | some pid =>
      let r := ingestBody fileCount pid token upNet listNet (ingestStart s)
      (ingestFinish r.1, r.2.1, r.2.2)

/-- Which branch of `deleteFile` ran. -/
inductive DeleteOutcome where
  | unauthorized : DeleteOutcome
  | networkError : DeleteOutcome
  | failed : DeleteOutcome
  | success : DeleteOutcome
deriving DecidableEq

/-- Line 219: `result.message || result.data?.message || "文件已删除"`.
`none` models the `TypeError` thrown when `result` is `null`/`undefined`,
caught by the enclosing `catch`. -/
def deleteSuccessMessage (body : JsValue) : Option JsValue := do
  let m ← getProp body "message"
  if truthy m then pure m
  else
    let d ← getProp body "data"
    let dm := optChainGet d "message"
    pure (if truthy dm then dm else .str "文件已删除")

/-- Line 202: `setIsDeleting(fileId)`, the synchronous prefix of `deleteFile`
before the network round trip suspends it. -/
def deleteStart (fileId : String) (s : ComponentState) : ComponentState :=
  { s with isDeleting := some fileId }

/-- Lines 203-243 of `deleteFile`: the continuation from the token read and
network round trip onward, ending with the `finally` write
`setIsDeleting(null)`. -/
def deleteFinish (fileId : String) (token : Option String) (net : FetchResult)
    (s : ComponentState) : ComponentState × List Event × DeleteOutcome :=
  match token with
  | none =>
      ({ s with isDeleting := none },
       [.toast "删除失败" (.str "请检查网络连接") true], .unauthorized)
  | some _ =>
    match net with
    | .thrown =>
        ({ s with isDeleting := none },
         [.networkCall (.delete fileId),
          .toast "删除失败" (.str "请检查网络连接") true], .networkError)
    | .response ok body =>
      if ok then
        match deleteSuccessMessage body with
        | none =>
            ({ s with isDeleting := none },
             [.networkCall (.delete fileId),
              .toast "删除失败" (.str "请检查网络连接") true], .networkError)
        | some m =>
            ({ s with
                files := s.files.filter
                  (fun file => ! jsStrictEqStr (jsGet file "id") fileId)
                isDeleting := none },
             [.networkCall (.delete fileId), .toast "删除成功" m false],
             .success)
      else
        match getProp body "message" with
        | none =>
            ({ s with isDeleting := none },
             [.networkCall (.delete fileId),
              .toast "删除失败" (.str "请检查网络连接") true], .networkError)
        | some m =>
            ({ s with isDeleting := none },
             [.networkCall (.delete fileId),
              .toast "删除失败" (if truthy m then m else .str "未知错误") true],
             .failed)

/-- `deleteFile` (lines 201-244). -/
def deleteFile (fileId : String) (token : Option String) (net : FetchResult)
    (s : ComponentState) : ComponentState × List Event × DeleteOutcome :=
  deleteFinish fileId token net (deleteStart fileId s)

/-- Whether `description.trim()` is the empty string, i.e. whether the
description is all whitespace.  (Line 318 disables the submit button exactly
when `!description.trim()`; a string trims to empty iff every character is
whitespace.) -/
def trimEmpty (s : String) : Bool :=
  s.data.all Char.isWhitespace

/-- User actions driving the view-mode machine (lines 296-434). -/
inductive ViewAction where
  | startDocument : ViewAction
  | back : ViewAction
  | editDescription : String → ViewAction
  | submitForm : ViewAction
  | chooseConversational : ViewAction

/-- One step of the view-mode machine.  The chooser view (rendered when
`step = initial`) offers the start-document button (line 420) and the
conversational path (line 427); the authoring form (rendered when
`step = document`) offers back (line 315), the description textarea
(line 309) and the submit button, which is disabled while
`description.trim()` is empty (line 318).  `handleSubmit` (lines 116-119)
passes the raw `description` to `onStartCreatingDocument`. -/
def viewNext (s : ComponentState) : ViewAction → ComponentState × List Event
  | .startDocument =>
      if s.step = .initial then ({ s with step := .document }, []) else (s, [])
  | .back =>
      if s.step = .document then ({ s with step := .initial }, []) else (s, [])
  | .editDescription t =>
      if s.step = .document then ({ s with description := t }, []) else (s, [])
  | .submitForm =>
      if s.step = .document then
        if trimEmpty s.description then (s, [])
        else (s, [.startCreatingDocument s.description])
      else (s, [])
  | .chooseConversational =>
      if s.step = .initial then (s, [.startCreatingDocument ""]) else (s, [])

/-- The `id` field of a stored record. -/
def idOf (file : JsValue) : JsValue :=
  jsGet file "id"

/-- Pairwise distinctness of a list with respect to a boolean comparator. -/
def nodupBy (eq : JsValue → JsValue → Bool) : List JsValue → Bool
  | [] => true
  | x :: xs => xs.all (fun y => ! eq x y) && nodupBy eq xs

/-- The id-uniqueness invariant of the Asset Store snapshot. -/
def uniqueIds (files : List JsValue) : Bool :=
  nodupBy jsEqb (files.map idOf)

/-- Whether an event list contains any network call. -/
def hasNetworkCall : List Event → Bool
  | [] => false
  | .networkCall _ :: _ => true
  | _ :: evs => hasNetworkCall evs

/-- Whether an event list contains a call to the list endpoint. -/
def hasListCall : List Event → Bool
  | [] => false
  | .networkCall .list :: _ => true
  | _ :: evs => hasListCall evs

/-- One store-affecting operation, with its environment. -/
inductive Op where
  | fetch : Option String → FetchResult → Op
  | ingest : Nat → Option String → FetchResult → FetchResult → Op
  | remove : String → Option String → FetchResult → Op

/-- Run one operation against the component state. -/
def runOp (projectId : Option String) (s : ComponentState) : Op → ComponentState
  | .fetch token net => (fetchFiles projectId token net s).1
  | .ingest n token upNet listNet =>
      (processFiles n projectId token upNet listNet s).1
  | .remove fileId token net => (deleteFile fileId token net s).1

/-- Run a sequence of operations. -/
def runOps (projectId : Option String) : List Op → ComponentState → ComponentState
  | [], s => s
  | op :: ops, s => runOps projectId ops (runOp projectId s op)

/-- An accepted list payload in this environment has pairwise-distinct ids. -/
def netGoodList (net : FetchResult) : Bool :=
  match net with
  | .thrown => true
  | .response _ body =>
    match extractFileData body with
    | some (.arr fs) => uniqueIds fs
    | _ => true

/-- Every list payload an operation may feed to the store has distinct ids. -/
def opGood : Op → Bool
  | .fetch _ net => netGoodList net
  | .ingest _ _ _ listNet => netGoodList listNet
  | .remove _ _ _ => true

/-- `fetchFiles` never touches the uploading flag. -/
theorem fetchFiles_isUploading (projectId token : Option String)
    (net : FetchResult) (s : ComponentState) :
    (fetchFiles projectId token net s).1.isUploading = s.isUploading := by
  rcases projectId with _ | p
  · rfl
  rcases token with _ | t
  · rfl
  rcases net with _ | ⟨ok, body⟩
  · rfl
  cases ok
  · cases h : getProp body "message" <;> simp [fetchFiles, h]
  · cases h : extractFileData body with
    | none => simp [fetchFiles, h]
    | some fd => cases fd <;> simp [fetchFiles, h]

/-- The store after `fetchFiles` is either the previous snapshot or a file
array successfully extracted from the response body. -/
theorem fetchFiles_files_cases (projectId token : Option String)
    (net : FetchResult) (s : ComponentState) :
    (fetchFiles projectId token net s).1.files = s.files ∨
    (∃ ok body fs, net = .response ok body ∧
      extractFileData body = some (.arr fs) ∧
      (fetchFiles projectId token net s).1.files = fs) := by
  rcases projectId with _ | p
  · exact Or.inl rfl
  rcases token with _ | t
  · exact Or.inl rfl
  rcases net with _ | ⟨ok, body⟩
  · exact Or.inl rfl
  cases ok
  · cases h : getProp body "message" <;> simp [fetchFiles, h]
  · cases h : extractFileData body with
    | none => simp [fetchFiles, h]
    | some fd =>
      cases fd with
      | arr fs =>
          exact Or.inr ⟨true, body, fs, rfl, h, by simp [fetchFiles, h]⟩
      | undefined => simp [fetchFiles, h]
      | null => simp [fetchFiles, h]
      | bool b => simp [fetchFiles, h]
      | num i => simp [fetchFiles, h]
      | str t => simp [fetchFiles, h]
      | obj fields => simp [fetchFiles, h]

/-- A `fetchFiles` run that did not reach the success branch leaves the
store exactly as it was. -/
theorem fetchFiles_frame (projectId token : Option String)
    (net : FetchResult) (s : ComponentState)
    (h : (fetchFiles projectId token net s).2.2 ≠ .success) :
    (fetchFiles projectId token net s).1.files = s.files := by
  rcases projectId with _ | p
  · rfl
  rcases token with _ | t
  · rfl
  rcases net with _ | ⟨ok, body⟩
  · rfl
  cases ok
  · cases hm : getProp body "message" <;> simp [fetchFiles, hm]
  · cases hx : extractFileData body with
    | none => simp [fetchFiles, hx]
    | some fd =>
      cases fd with
      | arr fs => exact absurd (by simp [fetchFiles, hx]) h
      | undefined => simp [fetchFiles, hx]
      | null => simp [fetchFiles, hx]
      | bool b => simp [fetchFiles, hx]
      | num i => simp [fetchFiles, hx]
      | str t => simp [fetchFiles, hx]
      | obj fields => simp [fetchFiles, hx]

/-- The body of `processFiles` never touches the uploading flag; only the
surrounding `setIsUploading` writes do. -/
theorem ingestBody_isUploading (n : Nat) (pid : String) (token : Option String)
    (upNet listNet : FetchResult) (s : ComponentState) :
    (ingestBody n pid token upNet listNet s).1.isUploading = s.isUploading := by
  rcases token with _ | t
  · rfl
  rcases upNet with _ | ⟨ok, body⟩
  · rfl
  cases ok
  · cases h : getProp body "message" <;> simp [ingestBody, h]
  · cases h : getProp body "message" with
    | none => simp [ingestBody, h]
    | some m => simp [ingestBody, h, fetchFiles_isUploading]

/-- The store after `processFiles` is either the previous snapshot or a file
array extracted from the refresh response. -/
theorem processFiles_files_cases (n : Nat) (projectId token : Option String)
    (upNet listNet : FetchResult) (s : ComponentState) :
    (processFiles n projectId token upNet listNet s).1.files = s.files ∨
    (∃ ok body fs, listNet = .response ok body ∧
      extractFileData body = some (.arr fs) ∧
      (processFiles n projectId token upNet listNet s).1.files = fs) := by
  rcases projectId with _ | p
  · exact Or.inl rfl
  rcases token with _ | t
  · exact Or.inl rfl
  rcases upNet with _ | ⟨ok, body⟩
  · exact Or.inl rfl
  cases ok
  · cases h : getProp body "message" <;>
      simp [processFiles, ingestBody, ingestStart, ingestFinish, h]
  · cases h : getProp body "message" with
    | none => simp [processFiles, ingestBody, ingestStart, ingestFinish, h]
    | some m =>
      rcases fetchFiles_files_cases (some p) (some t) listNet (ingestStart s)
        with hc | ⟨ok', body', fs, hnet, hex, hfiles⟩
      · left
        simp only [processFiles, ingestBody, ingestFinish, h]
        exact hc
      · right
        refine ⟨ok', body', fs, hnet, hex, ?_⟩
        simp only [processFiles, ingestBody, ingestFinish, h]
        exact hfiles

/-- The store after `deleteFile` is either the previous snapshot or that
snapshot with the records whose id equals the given one filtered out. -/
theorem deleteFile_files_cases (fileId : String) (token : Option String)
    (net : FetchResult) (s : ComponentState) :
    (deleteFile fileId token net s).1.files = s.files ∨
    (deleteFile fileId token net s).1.files
      = s.files.filter (fun file => ! jsStrictEqStr (jsGet file "id") fileId) := by
  rcases token with _ | t
  · exact Or.inl rfl
  rcases net with _ | ⟨ok, body⟩
  · exact Or.inl rfl
  cases ok
  · cases h : getProp body "message" <;>
      simp [deleteFile, deleteFinish, deleteStart, h]
  · cases h : deleteSuccessMessage body with
    | none => simp [deleteFile, deleteFinish, deleteStart, h]
    | some m => right; simp [deleteFile, deleteFinish, deleteStart, h]

/-- Pairwise distinctness is inherited by sublists. -/
theorem nodupBy_sublist (eq : JsValue → JsValue → Bool)
    {l₁ l₂ : List JsValue} (h : l₁.Sublist l₂) :
    nodupBy eq l₂ = true → nodupBy eq l₁ = true := by
  induction h with
  | slnil => intro _; rfl
  | cons a h ih =>
      intro H
      simp only [nodupBy, Bool.and_eq_true] at H
      exact ih H.2
  | cons₂ a h ih =>
      intro H
      simp only [nodupBy, Bool.and_eq_true, List.all_eq_true] at H ⊢
      exact ⟨fun y hy => H.1 y (h.subset hy), ih H.2⟩

/-- Filtering the store preserves id uniqueness. -/
theorem uniqueIds_filter (p : JsValue → Bool) (files : List JsValue)
    (h : uniqueIds files = true) : uniqueIds (files.filter p) = true :=
  nodupBy_sublist jsEqb ((List.filter_sublist files).map idOf) h

/-- C1, counterexample: a successful list response whose payload is a
top-level array (here holding the record of the concrete scenario of the
claim) is NOT decoded: the code takes the `malformed` branch and the store
stays empty, instead of containing the decoded record. -/
theorem c1_top_level_array_counterexample :
    (fetchFiles (some "p") (some "t")
        (.response true (.arr [.obj
          [("id", .str "x"), ("name", .str "r.pdf"), ("size", .num 2048)]]))
        initialState).2.2 = .malformed ∧
    (fetchFiles (some "p") (some "t")
        (.response true (.arr [.obj
          [("id", .str "x"), ("name", .str "r.pdf"), ("size", .num 2048)]]))
        initialState).1.files = [] :=
  ⟨rfl, rfl⟩

/-- C1, amended: for every successful list call the adapter tolerates the
two object envelopes — a `data.files` envelope and a `files` envelope — and
for each of them the Asset Store afterwards contains exactly the decoded
file records; a top-level array, however, is treated like any other
unrecognized payload shape, i.e. as a malformed response that leaves the
store unchanged. -/
theorem c1_envelope_decoding (fs : List JsValue) (pid tok : String)
    (s : ComponentState) :
    ((fetchFiles (some pid) (some tok)
        (.response true (.obj [("data", .obj [("files", .arr fs)])]))
        s).1.files = fs ∧
     (fetchFiles (some pid) (some tok)
        (.response true (.obj [("data", .obj [("files", .arr fs)])]))
        s).2.2 = .success) ∧
    ((fetchFiles (some pid) (some tok)
        (.response true (.obj [("files", .arr fs)])) s).1.files = fs ∧
     (fetchFiles (some pid) (some tok)
        (.response true (.obj [("files", .arr fs)])) s).2.2 = .success) ∧
    ((fetchFiles (some pid) (some tok)
        (.response true (.arr fs)) s).2.2 = .malformed ∧
     (fetchFiles (some pid) (some tok)
        (.response true (.arr fs)) s).1.files = s.files) :=
  ⟨⟨rfl, rfl⟩, ⟨rfl, rfl⟩, rfl, rfl⟩

/-- C2: the Asset Store never receives locally synthesized records from an
ingestion.  On upload success the store equals the result of the list call
issued afterwards (the event trace places the list network call strictly
after the upload call and its success signal); on every non-success outcome
the store is untouched and no list call is issued; and the resulting store
never depends on the uploaded batch itself. -/
theorem c2_upload_refresh (n : Nat) (pid tok : String)
    (upNet listNet : FetchResult) (s : ComponentState) :
    (∀ body m, upNet = .response true body → getProp body "message" = some m →
      (processFiles n (some pid) (some tok) upNet listNet s).1.files
        = (fetchFiles (some pid) (some tok) listNet (ingestStart s)).1.files ∧
      (processFiles n (some pid) (some tok) upNet listNet s).2.1
        = [.networkCall .upload,
           .toast "上传成功"
             (if truthy m then m
              else .str ("成功上传 " ++ toString n ++ " 个文件")) false]
          ++ (fetchFiles (some pid) (some tok) listNet (ingestStart s)).2.1
          ++ [.filesChanged] ∧
      (processFiles n (some pid) (some tok) upNet listNet s).2.2 = .success) ∧
    ((processFiles n (some pid) (some tok) upNet listNet s).2.2 ≠ .success →
      (processFiles n (some pid) (some tok) upNet listNet s).1.files = s.files ∧
      hasListCall (processFiles n (some pid) (some tok) upNet listNet s).2.1
        = false) ∧
    (∀ m, (processFiles m (some pid) (some tok) upNet listNet s).1.files
        = (processFiles n (some pid) (some tok) upNet listNet s).1.files) := by
  refine ⟨?_, ?_, ?_⟩
  · intro body m hup hm
    subst hup
    refine ⟨?_, ?_, ?_⟩ <;>
      simp [processFiles, ingestBody, ingestStart, ingestFinish, hm]
  · intro h
    rcases upNet with _ | ⟨ok, body⟩
    · exact ⟨rfl, rfl⟩
    cases ok
    · cases hm : getProp body "message" <;>
        simp [processFiles, ingestBody, ingestStart, ingestFinish,
          hasListCall, hm]
    · cases hm : getProp body "message" with
      | none =>
          simp [processFiles, ingestBody, ingestStart, ingestFinish,
            hasListCall, hm]
      | some m =>
          exact absurd (by simp [processFiles, ingestBody, hm]) h
  · intro m
    rcases upNet with _ | ⟨ok, body⟩
    · rfl
    cases ok
    · cases hm : getProp body "message" <;>
        simp [processFiles, ingestBody, ingestStart, ingestFinish, hm]
    · cases hm : getProp body "message" <;>
        simp [processFiles, ingestBody, ingestStart, ingestFinish, hm]

/-- C2 witness: a concrete successful upload followed by a list refresh that
returns one record; the store afterwards holds exactly that record. -/
theorem c2_upload_refresh_witness :
    (processFiles 1 (some "p") (some "t")
        (.response true (.obj [("message", .str "好")]))
        (.response true (.obj [("files", .arr [.obj [("id", .str "x")]])]))
        initialState).1.files = [.obj [("id", .str "x")]] :=
  (((c2_upload_refresh 1 "p" "t"
        (.response true (.obj [("message", .str "好")]))
        (.response true (.obj [("files", .arr [.obj [("id", .str "x")]])]))
        initialState).1 (.obj [("message", .str "好")]) (.str "好")
      rfl rfl).1).trans rfl

/-- C3: a confirmed-successful delete of id X filters exactly the records
with id X out of the store — every other record stays — with a single
network round trip (the delete call; no refresh); on a failed delete the
store is unchanged and the failure toast carries the backend message, or
the generic fallback when the backend provided none. -/
theorem c3_delete_semantics (fid tok : String) (body : JsValue)
    (s : ComponentState) :
    (∀ m, deleteSuccessMessage body = some m →
      (deleteFile fid (some tok) (.response true body) s).1.files
        = s.files.filter (fun file => ! jsStrictEqStr (jsGet file "id") fid) ∧
      (∀ f, f ∈ (deleteFile fid (some tok) (.response true body) s).1.files ↔
        (f ∈ s.files ∧ jsStrictEqStr (jsGet f "id") fid = false)) ∧
      (deleteFile fid (some tok) (.response true body) s).2.1
        = [.networkCall (.delete fid), .toast "删除成功" m false] ∧
      (deleteFile fid (some tok) (.response true body) s).2.2 = .success) ∧
    (∀ m, getProp body "message" = some m →
      (deleteFile fid (some tok) (.response false body) s).1.files = s.files ∧
      (deleteFile fid (some tok) (.response false body) s).2.1
        = [.networkCall (.delete fid),
           .toast "删除失败" (if truthy m then m else .str "未知错误") true] ∧
      (deleteFile fid (some tok) (.response false body) s).2.2 = .failed) := by
  constructor
  · intro m hm
    have hfiles : (deleteFile fid (some tok) (.response true body) s).1.files
        = s.files.filter (fun file => ! jsStrictEqStr (jsGet file "id") fid) := by
      simp [deleteFile, deleteFinish, deleteStart, hm]
    refine ⟨hfiles, ?_, ?_, ?_⟩
    · intro f
      rw [hfiles]
      simp [List.mem_filter]
    · simp [deleteFile, deleteFinish, deleteStart, hm]
    · simp [deleteFile, deleteFinish, deleteStart, hm]
  · intro m hm
    refine ⟨?_, ?_, ?_⟩ <;> simp [deleteFile, deleteFinish, deleteStart, hm]

/-- C3 witness: the concrete scenario of the claim — store holds ids a and
b, deleting a succeeds, the store becomes exactly the b record. -/
theorem c3_delete_semantics_witness :
    (deleteFile "a" (some "t") (.response true (.obj [("message", .str "已删除")]))
        { initialState with
            files := [.obj [("id", .str "a")], .obj [("id", .str "b")]] }).1.files
      = [.obj [("id", .str "b")]] :=
  (((c3_delete_semantics "a" "t" (.obj [("message", .str "已删除")])
        { initialState with
            files := [.obj [("id", .str "a")], .obj [("id", .str "b")]] }).1
      (.str "已删除") rfl).1).trans rfl

/-- C4: an ingestion attempted without a credential takes the unauthorized
branch before any network call (the event trace holds no network call), and
afterwards the store and the uploading flag hold their previous values. -/
theorem c4_unauthorized_ingest (n : Nat) (pid : String)
    (upNet listNet : FetchResult) (s : ComponentState)
    (h : s.isUploading = false) :
    (processFiles n (some pid) none upNet listNet s).2.2 = .unauthorized ∧
    hasNetworkCall (processFiles n (some pid) none upNet listNet s).2.1
      = false ∧
    (processFiles n (some pid) none upNet listNet s).1.files = s.files ∧
    (processFiles n (some pid) none upNet listNet s).1.isUploading
      = s.isUploading :=
  ⟨rfl, rfl, rfl, h.symm⟩

/-- C4 witness: the concrete scenario of the claim, starting from the
initial state with no credential. -/
theorem c4_unauthorized_ingest_witness :
    (processFiles 1 (some "p") none .thrown .thrown initialState).2.2
      = .unauthorized ∧
    hasNetworkCall
        (processFiles 1 (some "p") none .thrown .thrown initialState).2.1
      = false ∧
    (processFiles 1 (some "p") none .thrown .thrown initialState).1.files
      = initialState.files ∧
    (processFiles 1 (some "p") none .thrown .thrown initialState).1.isUploading
      = initialState.isUploading :=
  c4_unauthorized_ingest 1 "p" .thrown .thrown initialState rfl

/-- C5, counterexample: the deleting marker is a single nullable slot, not a
per-id map.  Start a delete of id a, then a delete of id b: the marker now
reads b (the a marker is already gone); when the delete of a then completes
successfully, the marker is reset to null even though the delete of b is
still in flight — the completion of one id's delete disturbs the other id's
marker. -/
theorem c5_marker_counterexample :
    (deleteStart "b" (deleteStart "a" initialState)).isDeleting = some "b" ∧
    (deleteStart "b" (deleteStart "a" initialState)).isDeleting ≠ some "a" ∧
    (deleteFinish "a" (some "t")
        (.response true (.obj [("message", .str "ok")]))
        (deleteStart "b" (deleteStart "a" initialState))).1.isDeleting
      = none ∧
    (none : Option String) ≠ some "b" :=
  ⟨rfl, by decide, rfl, by decide⟩

/-- C5, amended: the Deletion Coordinator keeps a single-slot deleting
marker holding the id of the most recently started delete; starting a
delete sets the marker to that id, and the marker is reset to null when a
delete completes, on the success and the failure outcome alike.  Deletes
for two different ids may be issued concurrently, but the second start
overwrites the first id's marker and the first completion clears the
marker while the second delete is still in flight. -/
theorem c5_deleting_marker (fileId : String) (token : Option String)
    (net : FetchResult) (s : ComponentState) :
    (deleteStart fileId s).isDeleting = some fileId ∧
    (deleteFinish fileId token net s).1.isDeleting = none ∧
    (deleteFile fileId token net s).1.isDeleting = none := by
  have h2 : ∀ s', (deleteFinish fileId token net s').1.isDeleting = none := by
    intro s'
    rcases token with _ | t
    · rfl
    rcases net with _ | ⟨ok, body⟩
    · rfl
    cases ok
    · cases hm : getProp body "message" <;> simp [deleteFinish, hm]
    · cases hm : deleteSuccessMessage body <;> simp [deleteFinish, hm]
  exact ⟨rfl, h2 s, h2 (deleteStart fileId s)⟩

/-- C6: within one ingestion call the uploading flag is set exactly at the
start, is never changed by the body of the call on any path (so it stays
true for the whole duration), and is false again after the call on every
outcome, success and failure alike. -/
theorem c6_uploading_flag (n : Nat) (pid : String) (token : Option String)
    (upNet listNet : FetchResult) (s : ComponentState) :
    (ingestStart s).isUploading = true ∧
    (∀ s', (ingestBody n pid token upNet listNet s').1.isUploading
        = s'.isUploading) ∧
    (processFiles n (some pid) token upNet listNet s).1.isUploading = false :=
  ⟨rfl, fun s' => ingestBody_isUploading n pid token upNet listNet s', rfl⟩

/-- C7: an ingestion without a project context returns the missing-context
branch with only an error toast — no network call, state untouched — and
mounting without a project context performs nothing but clearing the
loading flag, leaving the store empty with no event at all. -/
theorem c7_missing_context (n : Nat) (token tok2 : Option String)
    (upNet listNet net : FetchResult) (s : ComponentState) :
    processFiles n none token upNet listNet s
      = (s, [.toast "上传失败" (.str "未找到项目ID") true], .missingContext) ∧
    hasNetworkCall (processFiles n none token upNet listNet s).2.1 = false ∧
    mountEffect none tok2 net initialState
      = ({ initialState with isLoading := false }, [], .skipped) ∧
    (mountEffect none tok2 net initialState).1.files = [] :=
  ⟨rfl, rfl, rfl, rfl⟩

/-- C8, counterexample: the adapter accepts a list response whose files
array repeats an id, and stores it as is — after this successful list the
store holds two records with the same id, so id uniqueness is not an
invariant over every list response the adapter accepts. -/
theorem c8_duplicate_ids_counterexample :
    (fetchFiles (some "p") (some "t")
        (.response true (.obj [("files",
          .arr [.obj [("id", .str "x")], .obj [("id", .str "x")]])]))
        initialState).2.2 = .success ∧
    uniqueIds (fetchFiles (some "p") (some "t")
        (.response true (.obj [("files",
          .arr [.obj [("id", .str "x")], .obj [("id", .str "x")]])]))
        initialState).1.files = false :=
  ⟨rfl, rfl⟩

/-- C8, amended: provided every list response accepted during a run has
pairwise-distinct ids, the Asset Store keeps its id uniqueness through
every sequence of operations — initial or refreshing list calls replace
the snapshot wholesale with such a response, deletes only filter the
snapshot, and every failure path leaves it unchanged.  The adapter itself
does not validate uniqueness, so the proviso on responses is necessary. -/
theorem c8_unique_ids_invariant (projectId : Option String) (ops : List Op)
    (s : ComponentState) (hs : uniqueIds s.files = true)
    (hops : ∀ op ∈ ops, opGood op = true) :
    uniqueIds (runOps projectId ops s).files = true := by
  induction ops generalizing s with
  | nil => exact hs
  | cons op ops ih =>
      have hop : opGood op = true := hops op (List.mem_cons_self op ops)
      have hstep : uniqueIds (runOp projectId s op).files = true := by
        cases op with
        | fetch token net =>
            rcases fetchFiles_files_cases projectId token net s
              with hc | ⟨ok, body, fs, hnet, hex, hfiles⟩
            · show uniqueIds (fetchFiles projectId token net s).1.files = true
              rw [hc]; exact hs
            · show uniqueIds (fetchFiles projectId token net s).1.files = true
              rw [hfiles]
              subst hnet
              simpa [opGood, netGoodList, hex] using hop
        | ingest n token upNet listNet =>
            rcases processFiles_files_cases n projectId token upNet listNet s
              with hc | ⟨ok, body, fs, hnet, hex, hfiles⟩
            · show uniqueIds
                (processFiles n projectId token upNet listNet s).1.files = true
              rw [hc]; exact hs
            · show uniqueIds
                (processFiles n projectId token upNet listNet s).1.files = true
              rw [hfiles]
              subst hnet
              simpa [opGood, netGoodList, hex] using hop
        | remove fileId token net =>
            rcases deleteFile_files_cases fileId token net s with hc | hc
            · show uniqueIds (deleteFile fileId token net s).1.files = true
              rw [hc]; exact hs
            · show uniqueIds (deleteFile fileId token net s).1.files = true
              rw [hc]
              exact uniqueIds_filter _ s.files hs
      exact ih (runOp projectId s op) hstep
        (fun op' hop' => hops op' (List.mem_cons_of_mem op hop'))

/-- C8 witness: starting from the empty store, a list refresh returning two
distinct ids followed by a successful delete of one of them keeps the id
set duplicate-free. -/
theorem c8_unique_ids_invariant_witness :
    uniqueIds (runOps (some "p")
      [Op.fetch (some "t") (.response true (.obj [("files",
          .arr [.obj [("id", .str "a")], .obj [("id", .str "b")]])])),
       Op.remove "a" (some "t")
          (.response true (.obj [("message", .str "ok")]))]
      initialState).files = true :=
  c8_unique_ids_invariant (some "p") _ initialState rfl (by
    intro op hop
    rcases List.mem_cons.mp hop with h | hop
    · subst h; rfl
    rcases List.mem_cons.mp hop with h | hop
    · subst h; rfl
    · exact absurd hop (List.not_mem_nil op))

/-- C9: the view-mode machine starts in the chooser; the start-document
action moves it to the authoring form, back returns it to the chooser;
submitting with all-whitespace text is rejected with no transition and no
event, submitting non-blank text invokes the document-creation collaborator
with that text; the conversational path invokes it with the empty seed;
step changes happen on no other action and exit events on no other
action. -/
theorem c9_view_machine (s : ComponentState) :
    (viewNext { s with step := .initial } .startDocument
      = ({ s with step := .document }, [])) ∧
    (viewNext { s with step := .document } .back
      = ({ s with step := .initial }, [])) ∧
    (s.step = .document → trimEmpty s.description = true →
      viewNext s .submitForm = (s, [])) ∧
    (s.step = .document → trimEmpty s.description = false →
      viewNext s .submitForm = (s, [.startCreatingDocument s.description])) ∧
    (viewNext { s with step := .initial } .chooseConversational
      = ({ s with step := .initial }, [.startCreatingDocument ""])) ∧
    (∀ a, (viewNext s a).1.step ≠ s.step →
      (s.step = .initial ∧ a = .startDocument) ∨
      (s.step = .document ∧ a = .back)) ∧
    (∀ a, (viewNext s a).2 ≠ [] →
      a = .submitForm ∨ a = .chooseConversational) := by
  refine ⟨rfl, rfl, ?_, ?_, rfl, ?_, ?_⟩
  · intro h1 h2
    simp [viewNext, h1, h2]
  · intro h1 h2
    simp [viewNext, h1, h2]
  · intro a
    cases a with
    | submitForm =>
        intro hne
        exact absurd (by
          cases hstep : s.step with
          | initial => simp [viewNext, hstep]
          | document =>
              cases htr : trimEmpty s.description <;>
                simp [viewNext, hstep, htr]) hne
    | startDocument => cases hstep : s.step <;> simp [viewNext, hstep]
    | back => cases hstep : s.step <;> simp [viewNext, hstep]
    | editDescription t => cases hstep : s.step <;> simp [viewNext, hstep]
    | chooseConversational => cases hstep : s.step <;> simp [viewNext, hstep]
  · intro a h
    cases a with
    | submitForm => exact Or.inl rfl
    | chooseConversational => exact Or.inr rfl
    | startDocument =>
        exact absurd (by cases hstep : s.step <;> simp [viewNext, hstep]) h
    | back =>
        exact absurd (by cases hstep : s.step <;> simp [viewNext, hstep]) h
    | editDescription t =>
        exact absurd (by cases hstep : s.step <;> simp [viewNext, hstep]) h

/-- C9 witness: the concrete scenario of the claim — in the authoring form
with the text of the scenario, submitting invokes the collaborator with
exactly that text. -/
theorem c9_view_machine_witness :
    viewNext
        { initialState with
            step := .document
            description := "build me a shop" } .submitForm
      = ({ initialState with
            step := .document
            description := "build me a shop" },
         [.startCreatingDocument "build me a shop"]) :=
  (c9_view_machine
      { initialState with
          step := .document
          description := "build me a shop" }).2.2.2.1 rfl rfl

/-- C10: a list refresh that fails in any way — reported failure,
unrecognized payload shape, thrown network call, or a missing credential —
leaves the Asset Store holding exactly its previous snapshot. -/
theorem c10_failed_refresh_frame (projectId token : Option String)
    (net : FetchResult) (s : ComponentState)
    (h : (fetchFiles projectId token net s).2.2 ≠ .success) :
    (fetchFiles projectId token net s).1.files = s.files := by
  rcases projectId with _ | p
  · rfl
  rcases token with _ | t
  · rfl
  rcases net with _ | ⟨ok, body⟩
  · rfl
  cases ok
  · cases hm : getProp body "message" <;> simp [fetchFiles, hm]
  · cases hx : extractFileData body with
    | none => simp [fetchFiles, hx]
    | some fd =>
      cases fd with
      | arr fs => exact absurd (by simp [fetchFiles, hx]) h
      | undefined => simp [fetchFiles, hx]
      | null => simp [fetchFiles, hx]
      | bool b => simp [fetchFiles, hx]
      | num i => simp [fetchFiles, hx]
      | str t => simp [fetchFiles, hx]
      | obj fields => simp [fetchFiles, hx]

/-- C10 witness: a malformed payload (a bare string body) against a
non-empty store leaves the store exactly as it was. -/
theorem c10_failed_refresh_frame_witness :
    (fetchFiles (some "p") (some "t") (.response true (.str "bad"))
        { initialState with files := [.obj [("id", .str "a")]] }).1.files
      = [.obj [("id", .str "a")]] :=
  (c10_failed_refresh_frame (some "p") (some "t")
      (.response true (.str "bad"))
      { initialState with files := [.obj [("id", .str "a")]] }
      (by decide)).trans rfl

end EmptyProjectState
